import Mathlib

/-!
Verification development for the AI-RAG-chatbot repository
(`backend/backend_app.py`, `backend/rag_engine.py`, `backend/chroma_manager.py`).

Strings are modelled as `List Char` (Python `str`), distances as `ℚ`
(Python floats enter only through the comparison with the 0.7 threshold),
Python dictionaries as association lists, and Python exceptions as
`Except` values.  External collaborators (the ChromaDB client, the LLM
inference handle, clocks, uuid generation) are passed in as explicit
oracle arguments; the functions of the repository are translated
statement by statement.
-/

namespace RAGBot

abbrev Str := List Char

/-- Python `str.lower()` applied characterwise (ASCII case fold, which
covers every keyword in the router's list). -/
def pyLower (s : Str) : Str := s.map Char.toLower

/-- Python's `needle in hay` substring test on strings. -/
def containsSub (needle hay : Str) : Bool :=
  needle.isPrefixOf hay ||
    match hay with
    | [] => false
    | _ :: t => containsSub needle t

/-- `backend_app.needs_document_search`: the fixed keyword list
`doc_specific_keywords`. -/
def doc_specific_keywords : List Str :=
  ["manoj", "chauhan", "cv", "resume", "experience", "project", "skill",
   "role", "company", "enterprise", "digital transformation",
   "initiatives"].map String.toList

/-- `backend_app.needs_document_search(message)`: lowercase the message and
return whether any configured keyword occurs in it (the Python loop
returns `True` on the first match, `False` after the loop). -/
def needs_document_search (message : Str) : Bool :=
  doc_specific_keywords.any fun keyword => containsSub keyword (pyLower message)

/-- `backend_app.generate_session_title(first_message)`:
`first_message[:30] + "..." if len(first_message) > 30 else first_message`. -/
def generate_session_title (first_message : Str) : Str :=
  if first_message.length > 30 then first_message.take 30 ++ "...".toList
  else first_message

/-! ## RAG engine (`backend/rag_engine.py`) -/

/-- A Python dict with string keys and values (insertion-ordered,
unique keys), used for passage metadata. -/
abbrev Metadata := List (Str × Str)

/-- Python `d[k]` / `k in d` support: first (and, for a dict, only)
binding of `k`. -/
def dictGet (d : Metadata) (k : Str) : Option Str :=
  (d.find? (·.1 == k)).map (·.2)

/-- `os.path.basename` on a POSIX path: everything after the last `/`. -/
def basename (p : Str) : Str :=
  (p.reverse.takeWhile (· ≠ '/')).reverse

def unknownSource : Str := "Unknown source".toList

/-- The ordered key list of `RAGEngine.extract_filename_from_metadata`. -/
def possible_keys : List Str := ["filename", "source", "_source_file"].map String.toList

/-- The `for key in possible_keys` loop: value of the first key present. -/
def firstKeyHit : List Str → Metadata → Option Str
  | [], _ => none
  | k :: ks, m =>
    match dictGet m k with
    | some v => some v
    | none => firstKeyHit ks m

/-- `RAGEngine.extract_filename_from_metadata(metadata)`: `"Unknown source"`
for a falsy (empty) dict, else the basename of the first present key among
`possible_keys`, else `"Unknown source"`. -/
def extract_filename_from_metadata (metadata : Metadata) : Str :=
  if metadata.isEmpty then unknownSource
  else
    match firstKeyHit possible_keys metadata with
    | some filename => basename filename
    | none => unknownSource

/-- The inner lists of the ChromaDB query result used by `RAGEngine.query`:
`results["documents"][0]`, `results.get("metadatas", [[]])[0]`,
`results.get("distances", [[]])[0]`.  Distances are modelled in `ℚ`. -/
structure SearchResults where
  documents : List Str
  metadatas : List Metadata
  distances : List ℚ

/-- The fixed relevance threshold `DISTANCE_THRESHOLD = 0.7`. -/
def DISTANCE_THRESHOLD : ℚ := 7/10

def indexErrorText : Str := "list index out of range".toList

/-- The `for i, doc in enumerate(documents)` filtering loop of
`RAGEngine.query`, walking the three lists in lockstep: reading
`distances[i]` raises `IndexError` when the distances run out (the walk
consumes one distance per document); `metadatas[i] if i < len(metadatas)
else \x7b\x7d` is the head of the remaining metadatas, defaulting to the empty
dict.  Accepted passages contribute `doc[:1000]` to the contexts and the
extracted filename to the sources, in retrieval order. -/
def filterLoop : List Str → List Metadata → List ℚ → Except Str (List Str × List Str)
  | [], _, _ => .ok ([], [])
  | _ :: _, _, [] => .error indexErrorText
  | doc :: docs, metas, d :: dists =>
    match filterLoop docs metas.tail dists with
    | .error e => .error e
    | .ok (cs, ss) =>
      if d < DISTANCE_THRESHOLD then
        .ok (doc.take 1000 :: cs, extract_filename_from_metadata (metas.headD []) :: ss)
      else .ok (cs, ss)

/-- The guard `if results and results.get("documents") and
results["documents"][0]` followed by the filtering loop: a falsy result,
missing/falsy documents key, or empty first document list (all modelled by
`none` or an empty `documents`) leaves contexts and sources empty. -/
def retrieveFiltered (o : Option SearchResults) : Except Str (List Str × List Str) :=
  match o with
  | none => .ok ([], [])
  | some r => filterLoop r.documents r.metadatas r.distances

def generalKnowledgeInstr : Str :=
  "No relevant information found in the documents. Please answer using your general knowledge.".toList

/-- One entry of the context listing: `f"Source: \x7bsources[i]\x7d\nContent: \x7bcontexts[i]\x7d"`. -/
def contextEntry (source context : Str) : Str :=
  "Source: ".toList ++ source ++ "\nContent: ".toList ++ context

/-- Python `sep.join(xs)`. -/
def joinSep (sep : Str) : List Str → Str
  | [] => []
  | [x] => x
  | x :: xs => x ++ sep ++ joinSep sep xs

def promptHeader : Str :=
  ("<s>[INST] You are a helpful AI assistant. Use the following context to answer the question.\n" ++
   "If the context is not relevant, answer the question using your general knowledge.\n" ++
   "At the end of your response, only mention the source files if you used the provided context.\n\n" ++
   "Context from documents:\n").toList

def promptMid : Str := "\n\nQuestion: ".toList

def promptTail : Str := "\n\nPlease provide a helpful answer. [/INST]".toList

/-- `RAGEngine.build_prompt(query, contexts, sources)`.  The Python list
comprehension pairs `sources[i]` with `contexts[i]` for
`i in range(len(contexts))`; `query` always calls it with lists of equal
length, which `zipWith` reproduces. -/
def build_prompt (query : Str) (contexts sources : List Str) : Str :=
  let context_text :=
    if contexts.isEmpty then generalKnowledgeInstr
    else joinSep "\n\n".toList (List.zipWith contextEntry sources contexts)
  promptHeader ++ context_text ++ promptMid ++ query ++ promptTail

/-- Python `str.strip()` whitespace predicate. -/
def isPySpace (c : Char) : Bool :=
  c == ' ' || c == '\t' || c == '\n' || c == '\r' || c == '\x0b' || c == '\x0c'

/-- Python `str.strip()`. -/
def pyStrip (s : Str) : Str :=
  ((s.dropWhile isPySpace).reverse.dropWhile isPySpace).reverse

/-- The LLM inference handle (`self.llm(prompt, ...)` followed by
`response["choices"][0]["text"]`): from a prompt it produces the raw
completion text, or raises. -/
abbrev LLMFun := Str → Except Str Str

def errNotConnected : Str := "Error: Not connected to ChromaDB".toList

def errLLMNotLoaded : Str := "Error: LLM not loaded".toList

/-- `f"Error processing your question: \x7be\x7d"`. -/
def errProcessing (e : Str) : Str := "Error processing your question: ".toList ++ e

/-- The dict `\x7b"answer": ..., "sources": ...\x7d` returned by `RAGEngine.query`. -/
structure QueryResult where
  answer : Str
  sources : List Str
deriving DecidableEq

/-- `RAGEngine.query(question, top_k)`.  Oracles stand for the external
collaborators: `connected` is `self.chroma.is_connected()`, `searchOutcome`
is the outcome of `self.chroma.debug_search(...)` (raising maps to
`.error`, a falsy/empty result to `.ok none`), `llm` is `self.llm`
(`none` when not loaded).  The surrounding `try/except` turns any raise
into the `"Error processing your question"` answer with empty sources;
note that the `LLM not loaded` early return passes the already-collected
`sources` through unchanged, and that `list(set(sources))` is modelled by
`dedup` (membership-faithful; Python's set iteration order is
unspecified). -/
def query (connected : Bool) (searchOutcome : Except Str (Option SearchResults))
    (llm : Option LLMFun) (question : Str) : QueryResult :=
  if !connected then ⟨errNotConnected, []⟩
  else
    match searchOutcome with
    | .error e => ⟨errProcessing e, []⟩
    | .ok o =>
      match retrieveFiltered o with
      | .error e => ⟨errProcessing e, []⟩
      | .ok (contexts, sources) =>
        let prompt := build_prompt question contexts sources
        match llm with
        | none => ⟨errLLMNotLoaded, sources⟩
        | some f =>
          match f prompt with
          | .error e => ⟨errProcessing e, []⟩
          | .ok text => ⟨pyStrip text, if contexts.isEmpty then [] else sources.dedup⟩

/-- The engine's mutable handles: `self.llm` and the ChromaDB connection
state observed through `self.chroma.is_connected()`. -/
structure EngineState where
  llm : Option LLMFun
  connected : Bool

/-- Oracle for a call to `RAGEngine.connect()`: its boolean result and the
engine state after it (ChromaDB connection attempted, LLM possibly
loaded). -/
structure ConnectOracle where
  result : Bool
  post : EngineState

/-- `RAGEngine.generate_response` result: the
`\x7b"question", "answer", "sources"\x7d` dict, or the
`\x7b"error": "Failed to initialize LLM", "sources": []\x7d` dict returned when
lazy initialization fails (note the latter has no `"answer"` key). -/
inductive GenResult where
  | answered (question answer : Str) (sources : List Str)
  | initFailed
deriving DecidableEq

/-- `RAGEngine.generate_response(message)`: lazily `connect()`s when
`self.llm` is unset, then delegates to `query`.  `connect()` and `query`
catch their own exceptions, so the wrapper's `except` is never reached. -/
def generate_response (st : EngineState) (conn : ConnectOracle)
    (searchOutcome : Except Str (Option SearchResults)) (message : Str) :
    EngineState × GenResult :=
  match st.llm with
  | some _ =>
    let r := query st.connected searchOutcome st.llm message
    (st, .answered message r.answer r.sources)
  | none =>
    if conn.result then
      let r := query conn.post.connected searchOutcome conn.post.llm message
      (conn.post, .answered message r.answer r.sources)
    else (conn.post, .initFailed)

def directPromptHead : Str :=
  ("<s>[INST] You are a helpful AI assistant. Answer the following question using your general knowledge.\n\n" ++
   "Question: ").toList

def directPromptTail : Str := "\nAnswer: [/INST]".toList

/-- The prompt built by `RAGEngine.direct_response`. -/
def direct_prompt (message : Str) : Str :=
  directPromptHead ++ message ++ directPromptTail

def noneNotCallable : Str := "TypeError: NoneType object is not callable".toList

/-- `RAGEngine.direct_response(message)`: lazily connects when `self.llm`
is unset; returns `"Error: LLM not loaded"` when that connect fails.
There is **no** `try/except` in this method: an exception raised by the
LLM call propagates to the caller (modelled by the `.error` of the
`Except`). -/
def direct_response (st : EngineState) (conn : ConnectOracle) (message : Str) :
    EngineState × Except Str Str :=
  match st.llm with
  | some f => (st, (f (direct_prompt message)).map pyStrip)
  | none =>
    if conn.result then
      match conn.post.llm with
      | some f => (conn.post, (f (direct_prompt message)).map pyStrip)
      | none => (conn.post, .error noneNotCallable)
    else (conn.post, .ok errLLMNotLoaded)

/-! ## Chat session service (`backend/backend_app.py`) -/

/-- The `ChatMessage` pydantic model. -/
structure ChatMessage where
  role : Str
  content : Str
  timestamp : Str
  sources : List Str
  search_used : Bool
deriving DecidableEq

/-- The `ChatSession` pydantic model. -/
structure ChatSession where
  session_id : Str
  title : Str
  created_at : Str
  messages : List ChatMessage
  updated_at : Str
deriving DecidableEq

/-- The in-memory `chat_sessions` dict (and its on-disk copy), modelled as
an insertion-ordered association list with unique keys. -/
abbrev Store := List (Str × ChatSession)

/-- `chat_sessions.get(sid)` / `sid in chat_sessions`. -/
def lookupS (store : Store) (k : Str) : Option ChatSession :=
  (store.find? (·.1 == k)).map (·.2)

/-- Dict assignment `chat_sessions[k] = v`: replaces an existing binding in
place, appends a new one. -/
def insertS : Store → Str → ChatSession → Store
  | [], k, v => [(k, v)]
  | (k', v') :: t, k, v =>
    if k' == k then (k, v) :: t else (k', v') :: insertS t k v

/-- `del chat_sessions[k]` (on a dict, keys are unique). -/
def eraseS (store : Store) (k : Str) : Store :=
  store.filter fun p => !(p.1 == k)

/-- The `ChatRequest` pydantic model. -/
structure ChatRequest where
  message : Str
  session_id : Option Str
  search_documents : Bool

/-- A FastAPI handler outcome: a JSON value or an `HTTPException`
(`status`, `detail`). -/
inductive HTTPResult (α : Type) where
  | ok (a : α)
  | httpError (status : Nat) (detail : Str)
deriving DecidableEq

def notFoundDetail : Str := "Session not found".toList

def deletedMsg : Str := "Session deleted successfully".toList

/-- `GET /sessions/\x7bsession_id\x7d`. -/
def get_session (store : Store) (session_id : Str) : HTTPResult ChatSession :=
  match lookupS store session_id with
  | none => .httpError 404 notFoundDetail
  | some s => .ok s

/-- `DELETE /sessions/\x7bsession_id\x7d`: returns the in-memory store, the
persisted (on-disk) store, and the HTTP outcome. -/
def delete_session (store disk : Store) (session_id : Str) :
    Store × Store × HTTPResult Str :=
  match lookupS store session_id with
  | some _ =>
    let store' := eraseS store session_id
    (store', store', .ok deletedMsg)
  | none => (store, disk, .httpError 404 notFoundDetail)

/-- The chat response body
`\x7b"session_id", "message", "sources", "history"\x7d`. -/
structure ChatResponse where
  session_id : Str
  message : Str
  sources : List Str
  history : List ChatMessage
deriving DecidableEq

/-- The external inputs consumed by one `POST /chat` call: the generated
uuid, the three `datetime.now()` readings (request start, assistant
timestamp, `updated_at`), and the engine collaborators. -/
structure ChatOracles where
  newId : Str
  now1 : Str
  now2 : Str
  now3 : Str
  engine : EngineState
  conn : ConnectOracle
  searchOutcome : Except Str (Option SearchResults)

/-- `not session_id or session_id not in chat_sessions`: the request
resolves to a freshly created session. -/
def resolvesFresh (req : ChatRequest) (store : Store) : Bool :=
  match req.session_id with
  | none => true
  | some s => s.isEmpty || (lookupS store s).isNone

/-- The session id a chat request operates on. -/
def resolveSid (req : ChatRequest) (store : Store) (newId : Str) : Str :=
  match req.session_id with
  | none => newId
  | some s => if s.isEmpty || (lookupS store s).isNone then newId else s

/-- `str(KeyError("answer"))`: raised by `rag_response["answer"]` when
`generate_response` returned its init-failure dict. -/
def keyErrorAnswer : Str := "'answer'".toList

/-- The session freshly created inside `chat_endpoint` when the request
carries no usable session id. -/
def chatFreshSession (req : ChatRequest) (sid now1 : Str) : ChatSession :=
  ⟨sid, generate_session_title req.message, now1, [], now1⟩

/-- The in-memory store after the session-resolution step of
`chat_endpoint`. -/
def chatStore1 (req : ChatRequest) (store : Store) (o : ChatOracles) : Store :=
  if resolvesFresh req store then
    insertS store (resolveSid req store o.newId)
      (chatFreshSession req (resolveSid req store o.newId) o.now1)
  else store

/-- The user message appended by `chat_endpoint`. -/
def chatUserMsg (req : ChatRequest) (o : ChatOracles) : ChatMessage :=
  ⟨"user".toList, req.message, o.now1, [], req.search_documents⟩

/-- `should_search = request.search_documents and
needs_document_search(request.message)`. -/
def chatShould (req : ChatRequest) : Bool :=
  req.search_documents && needs_document_search req.message

/-- The engine call made by `chat_endpoint` and the extraction of
`(answer, sources)` from its result: on the retrieval path,
`rag_response["answer"]` raises `KeyError` when `generate_response`
returned its init-failure dict; on the direct path an exception from
`direct_response` propagates, and the sources are `[]`. -/
def chatEngineOut (req : ChatRequest) (o : ChatOracles) : Except Str (Str × List Str) :=
  if chatShould req then
    match generate_response o.engine o.conn o.searchOutcome req.message with
    | (_, .answered _ a s) => .ok (a, s)
    | (_, .initFailed) => .error keyErrorAnswer
  else
    match direct_response o.engine o.conn req.message with
    | (_, .ok a) => .ok (a, [])
    | (_, .error e) => .error e

/-- `POST /chat` (`chat_endpoint`).  Returns the in-memory store, the
on-disk store, and the HTTP outcome.  The whole body runs in a
`try/except` that converts any raise into a 500 whose detail is the
exception text; by then the user message has already been appended
in place, so it survives in the in-memory store, while `save_sessions`
(disk) was not reached. -/
def chat_endpoint (req : ChatRequest) (store disk : Store) (o : ChatOracles) :
    Store × Store × HTTPResult ChatResponse :=
  let sid := resolveSid req store o.newId
  let store1 := chatStore1 req store o
  match lookupS store1 sid with
  | none => (store1, disk, .httpError 500 keyErrorAnswer)
  | some session =>
    let msgs1 := session.messages ++ [chatUserMsg req o]
    let store2 := insertS store1 sid { session with messages := msgs1 }
    match chatEngineOut req o with
    | .error e => (store2, disk, .httpError 500 e)
    | .ok (answer, sources) =>
      let assistantMsg : ChatMessage :=
        ⟨"assistant".toList, answer, o.now2, sources, chatShould req⟩
      let msgs2 := msgs1 ++ [assistantMsg]
      let title' :=
        if msgs2.length == 2 then generate_session_title req.message
        else session.title
      let session' : ChatSession :=
        { session with messages := msgs2, title := title', updated_at := o.now3 }
      let store3 := insertS store2 sid session'
      (store3, store3, .ok ⟨sid, answer, sources, msgs2⟩)

/-- The number of messages already in the session a chat request resolves
to (0 for a freshly created session). -/
def chatOldLen (req : ChatRequest) (store : Store) : Nat :=
  if resolvesFresh req store then 0
  else
    match req.session_id with
    | none => 0
    | some s =>
      match lookupS store s with
      | none => 0
      | some v => v.messages.length

/-! ## Concrete inputs used to instantiate the theorems on closed values -/

/-- A chat request with the search toggle off and a keyword-free message. -/
def reqW : ChatRequest := ⟨"hello".toList, none, false⟩

/-- Oracles with a loaded LLM that answers `"ok"`. -/
def oW : ChatOracles :=
  ⟨"id1".toList, "t1".toList, "t2".toList, "t3".toList,
   ⟨some fun _ => .ok "ok".toList, true⟩, ⟨false, ⟨none, false⟩⟩, .ok none⟩

/-- The chat response produced by `chat_endpoint reqW [] [] oW`. -/
def respW : ChatResponse :=
  ⟨"id1".toList, "ok".toList, [],
   [⟨"user".toList, "hello".toList, "t1".toList, [], false⟩,
    ⟨"assistant".toList, "ok".toList, "t2".toList, [], false⟩]⟩

/-- Oracles with a loaded LLM that raises on every prompt. -/
def oBoom : ChatOracles :=
  ⟨"id1".toList, "t1".toList, "t2".toList, "t3".toList,
   ⟨some fun _ => .error "boom".toList, true⟩, ⟨false, ⟨none, false⟩⟩, .ok none⟩

/-- A chat request that takes the direct path. -/
def reqDirect : ChatRequest := ⟨"hi".toList, none, false⟩

/-- A pre-existing session with no messages. -/
def sess0 : ChatSession := ⟨"s1".toList, "T".toList, "c0".toList, [], "u0".toList⟩

/-- A store holding just `sess0`. -/
def store0 : Store := [("s1".toList, sess0)]

/-- A chat request addressed to the existing session `s1`. -/
def req10 : ChatRequest := ⟨"hi".toList, some "s1".toList, false⟩

theorem containsSub_iff_infix (needle hay : Str) :
    containsSub needle hay = true ↔ needle <:+: hay := by
  induction hay with
  | nil => simp [containsSub, List.isPrefixOf_iff_prefix]
  | cons a t ih =>
    rw [containsSub]
    simp only [Bool.or_eq_true, List.isPrefixOf_iff_prefix, ih]
    exact (List.infix_cons_iff).symm

theorem lookupS_cons (a : Str) (b : ChatSession) (t : Store) (k : Str) :
    lookupS ((a, b) :: t) k = if a == k then some b else lookupS t k := by
  by_cases h : a == k <;> simp [lookupS, List.find?_cons, h]

theorem lookupS_insertS (store : Store) (k : Str) (v : ChatSession) (k' : Str) :
    lookupS (insertS store k v) k' = if k = k' then some v else lookupS store k' := by
  induction store with
  | nil =>
    by_cases h : k = k' <;> simp [insertS, lookupS, List.find?_cons, h]
  | cons p t ih =>
    rcases p with ⟨a, b⟩
    simp only [insertS]
    by_cases hak : (a == k) = true
    · rw [if_pos hak]
      have ha : a = k := by simpa using hak
      subst ha
      by_cases h : a = k' <;> simp [lookupS_cons, h]
    · rw [if_neg hak, lookupS_cons, lookupS_cons, ih]
      have hne : a ≠ k := by simpa using hak
      by_cases h : a = k'
      · subst h
        have hka : ¬k = a := fun hh => hne hh.symm
        simp [hka]
      · simp [beq_iff_eq, h]

theorem lookupS_eraseS (store : Store) (k k' : Str) :
    lookupS (eraseS store k) k' = if k = k' then none else lookupS store k' := by
  induction store with
  | nil => by_cases h : k = k' <;> simp [eraseS, lookupS, h]
  | cons p t ih =>
    rcases p with ⟨a, b⟩
    simp only [eraseS, List.filter_cons] at ih ⊢
    by_cases hak : a = k
    · subst hak
      simp only [beq_self_eq_true, Bool.not_true, if_neg Bool.false_ne_true]
      rw [ih]
      by_cases h : a = k'
      · simp [h]
      · simp [h, lookupS_cons, beq_iff_eq]
    · have hb : (a == k) = false := by simpa using hak
      simp only [hb, Bool.not_false, if_pos trivial, lookupS_cons]
      rw [ih]
      by_cases h : k = k'
      · subst h
        have : (a == k) = false := hb
        simp [this]
      · simp [h]

theorem headD_eq_getD (metas : List Metadata) : metas.headD [] = metas.getD 0 [] := by
  cases metas <;> rfl

theorem tail_getD (metas : List Metadata) (i : Nat) :
    metas.tail.getD i [] = metas.getD (i + 1) [] := by
  cases metas <;> rfl

theorem filterLoop_length_eq (docs : List Str) (metas : List Metadata) (dists : List ℚ)
    (cs ss : List Str) (h : filterLoop docs metas dists = .ok (cs, ss)) :
    cs.length = ss.length := by
  induction docs generalizing metas dists cs ss with
  | nil =>
    simp only [filterLoop, Except.ok.injEq, Prod.mk.injEq] at h
    obtain ⟨h1, h2⟩ := h
    subst h1; subst h2; rfl
  | cons doc docs ih =>
    cases dists with
    | nil => simp [filterLoop] at h
    | cons d dists =>
      simp only [filterLoop] at h
      cases hrec : filterLoop docs metas.tail dists with
      | error e => rw [hrec] at h; simp at h
      | ok p =>
        rcases p with ⟨cs', ss'⟩
        rw [hrec] at h
        by_cases hd : d < DISTANCE_THRESHOLD
        · simp only [hd, if_true, Except.ok.injEq, Prod.mk.injEq] at h
          obtain ⟨h1, h2⟩ := h
          subst h1; subst h2
          simpa using ih _ _ _ _ hrec
        · simp only [hd, if_false, Except.ok.injEq, Prod.mk.injEq] at h
          obtain ⟨h1, h2⟩ := h
          subst h1; subst h2
          exact ih _ _ _ _ hrec

/-- Soundness of the relevance filter: every collected source label comes
from a retrieved passage whose distance is strictly below the threshold. -/
theorem filterLoop_sources_sound (docs : List Str) (metas : List Metadata)
    (dists : List ℚ) (cs ss : List Str)
    (h : filterLoop docs metas dists = .ok (cs, ss)) :
    ∀ s ∈ ss, ∃ i, i < docs.length ∧ dists.getD i 0 < DISTANCE_THRESHOLD ∧
      s = extract_filename_from_metadata (metas.getD i []) := by
  induction docs generalizing metas dists cs ss with
  | nil =>
    simp only [filterLoop, Except.ok.injEq, Prod.mk.injEq] at h
    obtain ⟨_, h2⟩ := h
    subst h2
    intro s hs
    simp at hs
  | cons doc docs ih =>
    cases dists with
    | nil => simp [filterLoop] at h
    | cons d dists =>
      simp only [filterLoop] at h
      cases hrec : filterLoop docs metas.tail dists with
      | error e => rw [hrec] at h; simp at h
      | ok p =>
        rcases p with ⟨cs', ss'⟩
        rw [hrec] at h
        by_cases hd : d < DISTANCE_THRESHOLD
        · simp only [hd, if_true, Except.ok.injEq, Prod.mk.injEq] at h
          obtain ⟨_, h2⟩ := h
          subst h2
          intro s hs
          rcases List.mem_cons.mp hs with hhead | htail
          · exact ⟨0, Nat.succ_pos _, by simpa using hd, by
              rw [hhead, headD_eq_getD]⟩
          · obtain ⟨i, hi, hdist, hsrc⟩ := ih _ _ _ _ hrec s htail
            exact ⟨i + 1, Nat.succ_lt_succ hi, by simpa using hdist, by
              rwa [← tail_getD]⟩
        · simp only [hd, if_false, Except.ok.injEq, Prod.mk.injEq] at h
          obtain ⟨_, h2⟩ := h
          subst h2
          intro s hs
          obtain ⟨i, hi, hdist, hsrc⟩ := ih _ _ _ _ hrec s hs
          exact ⟨i + 1, Nat.succ_lt_succ hi, by simpa using hdist, by
            rwa [← tail_getD]⟩

/-- Completeness of the relevance filter: on a successful pass, every
retrieved passage whose distance is strictly below the threshold
contributes its extracted source label. -/
theorem filterLoop_sources_complete (docs : List Str) (metas : List Metadata)
    (dists : List ℚ) (cs ss : List Str)
    (h : filterLoop docs metas dists = .ok (cs, ss)) :
    ∀ i, i < docs.length → dists.getD i 0 < DISTANCE_THRESHOLD →
      extract_filename_from_metadata (metas.getD i []) ∈ ss := by
  induction docs generalizing metas dists cs ss with
  | nil => intro i hi; simp at hi
  | cons doc docs ih =>
    cases dists with
    | nil => simp [filterLoop] at h
    | cons d dists =>
      simp only [filterLoop] at h
      cases hrec : filterLoop docs metas.tail dists with
      | error e => rw [hrec] at h; simp at h
      | ok p =>
        rcases p with ⟨cs', ss'⟩
        rw [hrec] at h
        by_cases hd : d < DISTANCE_THRESHOLD
        · simp only [hd, if_true, Except.ok.injEq, Prod.mk.injEq] at h
          obtain ⟨_, h2⟩ := h
          subst h2
          intro i hi hdist
          cases i with
          | zero => rw [← headD_eq_getD]; exact List.mem_cons_self _ _
          | succ j =>
            refine List.mem_cons_of_mem _ ?_
            rw [← tail_getD]
            exact ih _ _ _ _ hrec j (Nat.lt_of_succ_lt_succ hi) (by simpa using hdist)
        · simp only [hd, if_false, Except.ok.injEq, Prod.mk.injEq] at h
          obtain ⟨_, h2⟩ := h
          subst h2
          intro i hi hdist
          cases i with
          | zero => exact absurd (by simpa using hdist) hd
          | succ j =>
            rw [← tail_getD]
            exact ih _ _ _ _ hrec j (Nat.lt_of_succ_lt_succ hi) (by simpa using hdist)

/-- Under a successful filtering pass, every source returned by `query`
(whatever the LLM state) is one of the collected labels. -/
theorem query_sources_subset (question : Str) (r : SearchResults) (cs ss : List Str)
    (hfilter : filterLoop r.documents r.metadatas r.distances = .ok (cs, ss)) :
    ∀ llm : Option LLMFun, ∀ s ∈ (query true (.ok (some r)) llm question).sources,
      s ∈ ss := by
  intro llm s hs
  cases llm with
  | none =>
    simpa [query, retrieveFiltered, hfilter] using hs
  | some f =>
    cases hf : f (build_prompt question cs ss) with
    | error e => simp [query, retrieveFiltered, hfilter, hf] at hs
    | ok text =>
      simp only [query, retrieveFiltered, hfilter, hf, Bool.not_true, if_false] at hs
      by_cases hcs : cs.isEmpty
      · simp [hcs] at hs
      · simp only [hcs, if_false] at hs
        exact List.mem_dedup.mp hs

/-- C1: a retrieved passage at distance ≥ 0.7 never contributes its source
label to the returned sources (whatever the LLM state), and on a non-error
answer every retrieved passage at distance < 0.7 has its extracted source
label in the returned sources. -/
theorem query_relevance_filter (question : Str) (r : SearchResults) (cs ss : List Str)
    (hfilter : filterLoop r.documents r.metadatas r.distances = .ok (cs, ss)) :
    (∀ llm : Option LLMFun, ∀ s ∈ (query true (.ok (some r)) llm question).sources,
        ∃ i, i < r.documents.length ∧ r.distances.getD i 0 < DISTANCE_THRESHOLD ∧
          s = extract_filename_from_metadata (r.metadatas.getD i [])) ∧
    (∀ (f : LLMFun) (text : Str), f (build_prompt question cs ss) = .ok text →
      ∀ i, i < r.documents.length → r.distances.getD i 0 < DISTANCE_THRESHOLD →
        extract_filename_from_metadata (r.metadatas.getD i []) ∈
          (query true (.ok (some r)) (some f) question).sources) := by
  constructor
  · intro llm s hs
    exact filterLoop_sources_sound _ _ _ _ _ hfilter s
      (query_sources_subset question r cs ss hfilter llm s hs)
  · intro f text hf i hi hd
    have hmem := filterLoop_sources_complete _ _ _ _ _ hfilter i hi hd
    by_cases hcs : cs.isEmpty
    · have hss : ss = [] := by
        have hlen := filterLoop_length_eq _ _ _ _ _ hfilter
        have : cs = [] := List.isEmpty_iff.mp hcs
        subst this
        exact List.length_eq_zero.mp hlen.symm
      rw [hss] at hmem
      simp at hmem
    · simp only [query, retrieveFiltered, hfilter, hf, Bool.not_true, if_false,
        hcs]
      exact List.mem_dedup.mpr hmem

/-- C7: when no retrieved passage passes the filter, the returned sources
are empty (whatever the LLM does) and the prompt handed to the LLM carries
the general-knowledge instruction in place of any per-passage source
listing. -/
theorem query_no_accepted_passages (question : Str) (o : Option SearchResults)
    (hfilter : retrieveFiltered o = .ok ([], [])) :
    (∀ llm : Option LLMFun, (query true (.ok o) llm question).sources = []) ∧
    build_prompt question [] [] =
      promptHeader ++ generalKnowledgeInstr ++ promptMid ++ question ++ promptTail ∧
    generalKnowledgeInstr <:+: build_prompt question [] [] := by
  refine ⟨?_, ?_, ?_⟩
  · intro llm
    cases llm with
    | none => simp [query, hfilter]
    | some f =>
      cases hf : f (build_prompt question [] []) with
      | error e => simp [query, hfilter, hf]
      | ok t => simp [query, hfilter, hf]
  · simp [build_prompt]
  · exact ⟨promptHeader, promptMid ++ question ++ promptTail, by
      simp [build_prompt]⟩

/-- Branch evaluation of `query` when the store is connected, retrieval
and filtering succeed, and the LLM is not loaded. -/
theorem query_not_loaded_eval (question : Str) (o : Option SearchResults)
    (cs ss : List Str) (hf : retrieveFiltered o = .ok (cs, ss)) :
    query true (.ok o) none question = ⟨errLLMNotLoaded, ss⟩ := by
  simp [query, hf]

/-- The filter loop evaluated on a single accepted passage (distance 0.5,
metadata pointing at `a.txt`). -/
theorem filterLoop_single_accept :
    filterLoop ["d".toList] [[("filename".toList, "a.txt".toList)]] [1/2] =
      .ok (["d".toList], ["a.txt".toList]) := by
  have htake : "d".toList.take 1000 = "d".toList := List.take_of_length_le (by decide)
  norm_num [filterLoop, DISTANCE_THRESHOLD, htake]
  decide

/-- C3 counterexample: with a passage at distance 0.5 from `a.txt` accepted
and the LLM unloaded, `query` returns the `"Error: LLM not loaded"` error
answer together with a **non-empty** sources list. -/
theorem query_llm_not_loaded_nonempty_sources :
    query true
        (.ok (some ⟨["d".toList], [[("filename".toList, "a.txt".toList)]], [1/2]⟩))
        none "q".toList =
      ⟨errLLMNotLoaded, ["a.txt".toList]⟩ ∧
    (["a.txt".toList] : List Str) ≠ [] := by
  refine ⟨?_, by simp⟩
  exact query_not_loaded_eval "q".toList _ _ _ filterLoop_single_accept

/-- C3 amended: the not-connected, search-exception, filter-exception and
generation-exception error answers all carry empty sources, while the
`"Error: LLM not loaded"` error answer carries the source labels already
accepted by the filter (possibly non-empty). -/
theorem query_error_answer_sources (question e : Str)
    (searchOutcome : Except Str (Option SearchResults)) (llm : Option LLMFun)
    (o : Option SearchResults) (cs ss : List Str) (f : LLMFun) :
    query false searchOutcome llm question = ⟨errNotConnected, []⟩ ∧
    query true (.error e) llm question = ⟨errProcessing e, []⟩ ∧
    (retrieveFiltered o = .error e →
      query true (.ok o) llm question = ⟨errProcessing e, []⟩) ∧
    (retrieveFiltered o = .ok (cs, ss) → f (build_prompt question cs ss) = .error e →
      query true (.ok o) (some f) question = ⟨errProcessing e, []⟩) ∧
    (retrieveFiltered o = .ok (cs, ss) →
      query true (.ok o) none question = ⟨errLLMNotLoaded, ss⟩) := by
  refine ⟨by simp [query], by simp [query], fun hferr => by simp [query, hferr],
    fun hf hraise => by simp [query, hf, hraise], fun hf => by simp [query, hf]⟩

/-- Witness for C3's amended statement: a concrete caught generation
exception yields the error answer with empty sources. -/
theorem query_error_answer_sources_witness :
    query true (.ok none) (some fun _ => .error "boom".toList) "q".toList =
      ⟨errProcessing "boom".toList, []⟩ :=
  (query_error_answer_sources "q".toList "boom".toList (.ok none) none none [] []
    (fun _ => .error "boom".toList)).2.2.2.1 rfl rfl

/-- The filter loop evaluated on two passages, of which only the first
(distance 0.5) is accepted; the second (distance 0.9) is discarded. -/
theorem filterLoop_accept_reject :
    filterLoop ["d1".toList, "d2".toList]
        [[("filename".toList, "a.txt".toList)], [("filename".toList, "b.pdf".toList)]]
        [1/2, 9/10] =
      .ok (["d1".toList], ["a.txt".toList]) := by
  have htake : "d1".toList.take 1000 = "d1".toList := List.take_of_length_le (by decide)
  norm_num [filterLoop, DISTANCE_THRESHOLD, htake]
  decide

/-- Witness for C1 at a concrete retrieval: two passages at distances 0.5
and 0.9; the first one's label is in the returned sources. -/
theorem query_relevance_filter_witness :
    extract_filename_from_metadata
        (([[("filename".toList, "a.txt".toList)],
           [("filename".toList, "b.pdf".toList)]] : List Metadata).getD 0 []) ∈
      (query true
          (.ok (some ⟨["d1".toList, "d2".toList],
            [[("filename".toList, "a.txt".toList)],
             [("filename".toList, "b.pdf".toList)]], [1/2, 9/10]⟩))
          (some fun _ => .ok "ans".toList) "q".toList).sources :=
  (query_relevance_filter "q".toList _ ["d1".toList] ["a.txt".toList]
      filterLoop_accept_reject).2 (fun _ => .ok "ans".toList) "ans".toList rfl 0
    (by decide) (by norm_num [DISTANCE_THRESHOLD])

/-- Witness for C7: an empty search result yields empty sources. -/
theorem query_no_accepted_passages_witness :
    (query true (.ok none) none "q".toList).sources = [] :=
  (query_no_accepted_passages "q".toList none rfl).1 none

/-- C4: `needs_document_search` is true iff some configured keyword occurs
as a substring of the lowercased message (the lowercasing makes the check
case-insensitive). -/
theorem needs_document_search_iff (message : Str) :
    needs_document_search message = true ↔
      ∃ k ∈ doc_specific_keywords, k <:+: pyLower message := by
  simp [needs_document_search, List.any_eq_true, containsSub_iff_infix]

/-- C9: the derived session title is the message verbatim when its length
is at most 30, and the first 30 characters followed by `"..."` when its
length exceeds 30. -/
theorem generate_session_title_spec (m : Str) :
    (m.length ≤ 30 → generate_session_title m = m) ∧
    (30 < m.length → generate_session_title m = m.take 30 ++ "...".toList) := by
  refine ⟨fun h => ?_, fun h => ?_⟩ <;> simp [generate_session_title] <;> omega

/-- Witness for C9 at a short and a long concrete message. -/
theorem generate_session_title_spec_witness :
    generate_session_title "hi".toList = "hi".toList ∧
    generate_session_title "abcdefghijklmnopqrstuvwxyz0123456789".toList =
      "abcdefghijklmnopqrstuvwxyz0123456789".toList.take 30 ++ "...".toList :=
  ⟨(generate_session_title_spec _).1 (by decide),
   (generate_session_title_spec _).2 (by decide)⟩

theorem insertS_insertS (st : Store) (k : Str) (v v' : ChatSession) :
    insertS (insertS st k v) k v' = insertS st k v' := by
  induction st with
  | nil => simp [insertS]
  | cons p t ih =>
    rcases p with ⟨a, b⟩
    by_cases h : (a == k) = true
    · have ha : a = k := by simpa using h
      subst ha
      simp [insertS]
    · simp [insertS, h, ih]

theorem resolveSid_fresh (req : ChatRequest) (store : Store) (newId : Str)
    (h : resolvesFresh req store = true) :
    resolveSid req store newId = newId := by
  cases hs : req.session_id with
  | none => simp [resolveSid, hs]
  | some s =>
    simp only [resolvesFresh, hs] at h
    simp [resolveSid, hs, h]

theorem resolve_not_fresh (req : ChatRequest) (store : Store) (newId : Str)
    (h : resolvesFresh req store = false) :
    ∃ s v, req.session_id = some s ∧ resolveSid req store newId = s ∧
      lookupS store s = some v := by
  cases hs : req.session_id with
  | none => simp [resolvesFresh, hs] at h
  | some s =>
    simp only [resolvesFresh, hs, Bool.or_eq_false_iff] at h
    obtain ⟨h1, h2⟩ := h
    cases hv : lookupS store s with
    | none => rw [hv] at h2; simp at h2
    | some v => exact ⟨s, v, rfl, by simp [resolveSid, hs, h1, hv], hv⟩

theorem chatStore1_lookup_fresh (req : ChatRequest) (store : Store) (o : ChatOracles)
    (hfresh : resolvesFresh req store = true) :
    lookupS (chatStore1 req store o) (resolveSid req store o.newId) =
      some (chatFreshSession req (resolveSid req store o.newId) o.now1) := by
  simp [chatStore1, hfresh, lookupS_insertS]

theorem chatStore1_lookup_other (req : ChatRequest) (store : Store) (o : ChatOracles)
    (k : Str) (hk : k ≠ resolveSid req store o.newId) :
    lookupS (chatStore1 req store o) k = lookupS store k := by
  by_cases hfresh : resolvesFresh req store = true
  · simp only [chatStore1, hfresh, if_true, lookupS_insertS]
    rw [if_neg fun h => hk h.symm]
  · simp [chatStore1, hfresh]

theorem chatStore1_lookup_isSome (req : ChatRequest) (store : Store) (o : ChatOracles) :
    ∃ session,
      lookupS (chatStore1 req store o) (resolveSid req store o.newId) = some session := by
  by_cases hfresh : resolvesFresh req store = true
  · exact ⟨_, chatStore1_lookup_fresh req store o hfresh⟩
  · obtain ⟨s, v, hs, hsid, hv⟩ :=
      resolve_not_fresh req store o.newId (by simpa using hfresh)
    exact ⟨v, by simp [chatStore1, hfresh, hsid, hv]⟩

/-- Evaluation of `chat_endpoint` once the resolved session is known. -/
theorem chat_eval (req : ChatRequest) (store disk : Store) (o : ChatOracles)
    (session : ChatSession)
    (hsess : lookupS (chatStore1 req store o) (resolveSid req store o.newId) =
      some session) :
    chat_endpoint req store disk o =
      match chatEngineOut req o with
      | .error e =>
        (insertS (chatStore1 req store o) (resolveSid req store o.newId)
          { session with messages := session.messages ++ [chatUserMsg req o] },
         disk, .httpError 500 e)
      | .ok (answer, sources) =>
        let msgs2 := session.messages ++ [chatUserMsg req o] ++
          [⟨"assistant".toList, answer, o.now2, sources, chatShould req⟩]
        let session' : ChatSession := ⟨session.session_id,
          (if msgs2.length == 2 then generate_session_title req.message
            else session.title), session.created_at, msgs2, o.now3⟩
        let store3 := insertS (chatStore1 req store o) (resolveSid req store o.newId)
          session'
        (store3, store3,
         .ok ⟨resolveSid req store o.newId, answer, sources, msgs2⟩) := by
  simp only [chat_endpoint, hsess]
  cases heng : chatEngineOut req o with
  | error e => simp
  | ok p =>
    rcases p with ⟨a, s⟩
    simp [insertS_insertS, List.append_assoc]

theorem chatEngineOut_direct_error (req : ChatRequest) (o : ChatOracles)
    (g : LLMFun) (e : Str) (hss : chatShould req = false)
    (hllm : o.engine.llm = some g)
    (hraise : g (direct_prompt req.message) = .error e) :
    chatEngineOut req o = .error e := by
  simp [chatEngineOut, hss, direct_response, hllm, hraise, Except.map]

theorem chatEngineOut_direct_sources (req : ChatRequest) (o : ChatOracles)
    (a : Str) (srcs : List Str) (hss : chatShould req = false)
    (h : chatEngineOut req o = .ok (a, srcs)) : srcs = [] := by
  simp only [chatEngineOut, hss, Bool.false_eq_true, if_false] at h
  rcases hd : direct_response o.engine o.conn req.message with ⟨st, r⟩
  rw [hd] at h
  cases r with
  | ok a' =>
    simp only [Except.ok.injEq, Prod.mk.injEq] at h
    exact h.2.symm
  | error e => simp at h

/-- C5: under `chat`, no session's message list ever shrinks, and a
successful call leaves the resolved session with exactly two more messages
than it had before.  `hnew` is the uuid4 freshness assumption: the
generated id does not collide with an existing session. -/
theorem chat_messages_length (req : ChatRequest) (store disk : Store) (o : ChatOracles)
    (hnew : lookupS store o.newId = none) :
    (∀ k s, lookupS store k = some s →
      ∃ s', lookupS (chat_endpoint req store disk o).1 k = some s' ∧
        s.messages.length ≤ s'.messages.length) ∧
    (∀ resp, (chat_endpoint req store disk o).2.2 = .ok resp →
      ∃ s', lookupS (chat_endpoint req store disk o).1 resp.session_id = some s' ∧
        s'.messages.length = chatOldLen req store + 2) := by
  obtain ⟨session, hsess⟩ := chatStore1_lookup_isSome req store o
  have heval := chat_eval req store disk o session hsess
  have hsession_eq : ∀ s, lookupS store (resolveSid req store o.newId) = some s →
      session = s := by
    intro s hs
    by_cases hfresh : resolvesFresh req store = true
    · rw [resolveSid_fresh req store o.newId hfresh, hnew] at hs
      cases hs
    · have hfr : resolvesFresh req store = false := by simpa using hfresh
      have hst : chatStore1 req store o = store := by simp [chatStore1, hfr]
      rw [hst, hs] at hsess
      exact (Option.some_inj.mp hsess).symm
  have hold : session.messages.length = chatOldLen req store := by
    by_cases hfresh : resolvesFresh req store = true
    · have := chatStore1_lookup_fresh req store o hfresh
      rw [hsess] at this
      have hse : session = chatFreshSession req (resolveSid req store o.newId) o.now1 := by
        injection this
      rw [hse]
      simp [chatFreshSession, chatOldLen, hfresh]
    · have hfr : resolvesFresh req store = false := by simpa using hfresh
      obtain ⟨s₀, v, hs₀, hsid, hv⟩ := resolve_not_fresh req store o.newId hfr
      have hv' : lookupS store (resolveSid req store o.newId) = some v := by
        rw [hsid]; exact hv
      rw [hsession_eq v hv']
      simp [chatOldLen, hfr, hs₀, hv]
  constructor
  · intro k s hks
    rw [heval]
    cases heng : chatEngineOut req o with
    | error e =>
      by_cases hk : k = resolveSid req store o.newId
      · subst hk
        have hse := hsession_eq s hks
        subst hse
        refine ⟨_, by rw [lookupS_insertS, if_pos rfl], ?_⟩
        simp
      · refine ⟨s, ?_, le_refl _⟩
        rw [lookupS_insertS, if_neg fun h => hk h.symm,
          chatStore1_lookup_other req store o k hk]
        exact hks
    | ok p =>
      rcases p with ⟨a, srcs⟩
      simp only
      by_cases hk : k = resolveSid req store o.newId
      · subst hk
        have hse := hsession_eq s hks
        subst hse
        refine ⟨_, by rw [lookupS_insertS, if_pos rfl], ?_⟩
        simp
      · refine ⟨s, ?_, le_refl _⟩
        rw [lookupS_insertS, if_neg fun h => hk h.symm,
          chatStore1_lookup_other req store o k hk]
        exact hks
  · intro resp hresp
    rw [heval] at hresp ⊢
    cases heng : chatEngineOut req o with
    | error e =>
      rw [heng] at hresp
      simp at hresp
    | ok p =>
      rcases p with ⟨a, srcs⟩
      rw [heng] at hresp
      simp only [] at hresp
      injection hresp with hresp
      subst hresp
      refine ⟨_, by rw [lookupS_insertS, if_pos rfl], ?_⟩
      simp [hold]

/-- C8: on every successful chat call the appended assistant message
carries `search_used = request.search_documents AND
needs_document_search(request.message)`; when that conjunction is false,
the direct path was taken and both the assistant message's sources and the
response's sources are empty. -/
theorem chat_assistant_search_used (req : ChatRequest) (store disk : Store)
    (o : ChatOracles) :
    ∀ resp, (chat_endpoint req store disk o).2.2 = .ok resp →
      ∃ m, resp.history.getLast? = some m ∧
        m.role = "assistant".toList ∧
        m.search_used = (req.search_documents && needs_document_search req.message) ∧
        ((req.search_documents && needs_document_search req.message) = false →
          m.sources = [] ∧ resp.sources = []) := by
  intro resp hresp
  obtain ⟨session, hsess⟩ := chatStore1_lookup_isSome req store o
  rw [chat_eval req store disk o session hsess] at hresp
  cases heng : chatEngineOut req o with
  | error e =>
    rw [heng] at hresp
    simp at hresp
  | ok p =>
    rcases p with ⟨a, srcs⟩
    rw [heng] at hresp
    simp only [HTTPResult.ok.injEq] at hresp
    subst hresp
    refine ⟨_, by rw [List.getLast?_concat], rfl, rfl, fun hss => ?_⟩
    have : srcs = [] := chatEngineOut_direct_sources req o a srcs hss heng
    exact ⟨this, this⟩

/-- C2 counterexample: a chat request whose message matches no router
keyword (so the direct path runs) with an LLM handle that raises during
generation produces a 500 response carrying the exception text — the
exception left the engine. -/
theorem chat_direct_generation_exception_500 :
    (chat_endpoint ⟨"hello".toList, none, true⟩ [] []
      ⟨"id1".toList, "t1".toList, "t2".toList, "t3".toList,
       ⟨some fun _ => .error "boom".toList, true⟩,
       ⟨false, ⟨none, false⟩⟩, .ok none⟩).2.2 =
      .httpError 500 "boom".toList := by
  decide

/-- C2 amended: an exception during LLM generation on the retrieval path
is caught inside `query` and becomes an error-text answer with empty
sources, but on the direct path `direct_response` has no handler and the
exception surfaces at the HTTP layer as a 500 with the exception text. -/
theorem generation_exception_policy
    (question e : Str) (o : Option SearchResults) (cs ss : List Str) (f : LLMFun)
    (req : ChatRequest) (store disk : Store) (oc : ChatOracles) (g : LLMFun)
    (e' : Str) :
    (retrieveFiltered o = .ok (cs, ss) → f (build_prompt question cs ss) = .error e →
      query true (.ok o) (some f) question = ⟨errProcessing e, []⟩) ∧
    (chatShould req = false → oc.engine.llm = some g →
      g (direct_prompt req.message) = .error e' →
      (chat_endpoint req store disk oc).2.2 = .httpError 500 e') := by
  constructor
  · intro hf hraise
    simp [query, hf, hraise]
  · intro hss hllm hraise
    have heng := chatEngineOut_direct_error req oc g e' hss hllm hraise
    obtain ⟨session, hsess⟩ := chatStore1_lookup_isSome req store oc
    rw [chat_eval req store disk oc session hsess, heng]

/-- C6: `deleteSession` on an unknown id returns 404 and leaves both the
in-memory store and the disk copy unchanged; on a known id it removes the
session (a following `getSession` returns 404), leaves every other session
in place, and persists the shrunken store. -/
theorem delete_session_spec (store disk : Store) (sid : Str) :
    (lookupS store sid = none →
      delete_session store disk sid = (store, disk, .httpError 404 notFoundDetail)) ∧
    (∀ s, lookupS store sid = some s →
      lookupS (delete_session store disk sid).1 sid = none ∧
      get_session (delete_session store disk sid).1 sid =
        .httpError 404 notFoundDetail ∧
      (∀ k, k ≠ sid → lookupS (delete_session store disk sid).1 k = lookupS store k) ∧
      (delete_session store disk sid).2.1 = (delete_session store disk sid).1) := by
  constructor
  · intro h
    simp [delete_session, h]
  · intro s h
    have h1 : delete_session store disk sid =
        (eraseS store sid, eraseS store sid, .ok deletedMsg) := by
      simp [delete_session, h]
    rw [h1]
    refine ⟨by simp [lookupS_eraseS], by simp [get_session, lookupS_eraseS], ?_, rfl⟩
    intro k hk
    rw [lookupS_eraseS, if_neg (show ¬sid = k from fun h' => hk h'.symm)]

/-- C10: when the engine call raises after the user message was appended,
the in-memory session keeps the orphaned user message, its `updated_at` is
not refreshed, the store is not re-persisted, and the request fails with a
500 carrying the exception text. -/
theorem chat_non_atomic_on_engine_error (req : ChatRequest) (store disk : Store)
    (o : ChatOracles) (sid : Str) (s : ChatSession) (g : LLMFun) (e : Str)
    (hsid : req.session_id = some sid)
    (hne : sid.isEmpty = false)
    (hmem : lookupS store sid = some s)
    (hss : chatShould req = false)
    (hllm : o.engine.llm = some g)
    (hraise : g (direct_prompt req.message) = .error e) :
    (chat_endpoint req store disk o).2.2 = .httpError 500 e ∧
    lookupS (chat_endpoint req store disk o).1 sid =
      some { s with messages := s.messages ++ [chatUserMsg req o] } ∧
    ({ s with messages := s.messages ++ [chatUserMsg req o] } : ChatSession).updated_at
      = s.updated_at ∧
    (chat_endpoint req store disk o).2.1 = disk := by
  have hfr : resolvesFresh req store = false := by
    simp [resolvesFresh, hsid, hne, hmem]
  have hsidr : resolveSid req store o.newId = sid := by
    simp [resolveSid, hsid, hne, hmem]
  have hst : chatStore1 req store o = store := by simp [chatStore1, hfr]
  have hsess : lookupS (chatStore1 req store o) (resolveSid req store o.newId) =
      some s := by rw [hst, hsidr]; exact hmem
  have heng := chatEngineOut_direct_error req o g e hss hllm hraise
  rw [chat_eval req store disk o s hsess, heng]
  refine ⟨rfl, ?_, rfl, rfl⟩
  rw [hsidr, lookupS_insertS, if_pos rfl]

/-- Witness for C5: a concrete successful chat call on an empty store
leaves the resolved session with exactly two messages. -/
theorem chat_messages_length_witness :
    ∃ s', lookupS (chat_endpoint reqW [] [] oW).1 respW.session_id = some s' ∧
      s'.messages.length = chatOldLen reqW [] + 2 :=
  (chat_messages_length reqW [] [] oW rfl).2 respW (by decide)

/-- Witness for C8: on the concrete direct-path call, the assistant
message records `search_used = false` and empty sources. -/
theorem chat_assistant_search_used_witness :
    ∃ m, respW.history.getLast? = some m ∧
      m.role = "assistant".toList ∧
      m.search_used = (reqW.search_documents && needs_document_search reqW.message) ∧
      ((reqW.search_documents && needs_document_search reqW.message) = false →
        m.sources = [] ∧ respW.sources = []) :=
  chat_assistant_search_used reqW [] [] oW respW (by decide)

/-- Witness for C2's amended statement: a concrete direct-path generation
exception surfaces as a 500. -/
theorem generation_exception_policy_witness :
    (chat_endpoint reqDirect [] [] oBoom).2.2 = .httpError 500 "boom".toList :=
  (generation_exception_policy "q".toList "boom".toList none [] []
      (fun _ => .error "boom".toList) reqDirect [] [] oBoom
      (fun _ => .error "boom".toList) "boom".toList).2 rfl rfl rfl

/-- Witness for C6: deleting from the empty store is a 404 that changes
nothing; deleting the present session `s1` removes it. -/
theorem delete_session_spec_witness :
    delete_session [] [] "x".toList = ([], [], .httpError 404 notFoundDetail) ∧
    lookupS (delete_session store0 [] "s1".toList).1 "s1".toList = none :=
  ⟨(delete_session_spec [] [] "x".toList).1 rfl,
   ((delete_session_spec store0 [] "s1".toList).2 sess0 rfl).1⟩

/-- Witness for C10: a concrete engine exception leaves the orphaned user
message in `s1`, does not touch `updated_at`, does not persist, and
returns the 500. -/
theorem chat_non_atomic_witness :
    (chat_endpoint req10 store0 [] oBoom).2.2 = .httpError 500 "boom".toList ∧
    lookupS (chat_endpoint req10 store0 [] oBoom).1 "s1".toList =
      some { sess0 with messages := sess0.messages ++ [chatUserMsg req10 oBoom] } ∧
    ({ sess0 with
        messages := sess0.messages ++ [chatUserMsg req10 oBoom] } : ChatSession).updated_at
      = sess0.updated_at ∧
    (chat_endpoint req10 store0 [] oBoom).2.1 = [] :=
  chat_non_atomic_on_engine_error req10 store0 [] oBoom "s1".toList sess0
    (fun _ => .error "boom".toList) "boom".toList rfl rfl rfl rfl rfl rfl

end RAGBot
